import Mathlib

/-!
Shallow embedding of the erp-aero file service core
(token lifecycle: src/services/tokenService.ts, src/models (Token model);
file persistence: src/services/fileService.ts, src/models (File model);
controller/middleware: FileController.list, authMiddleware),
together with theorems settling the specification claims.

The relational store is modelled as a list of rows; `NOW()` and
`CURRENT_TIMESTAMP` are an explicit `now : Nat` parameter; random values
(UUID storage names, refresh-token secrets) are injected as parameters with
freshness hypotheses where the code relies on uniqueness.
-/

namespace ErpAero

/-- A row of the `tokens` table (migration script: id, user_id, device_id,
refresh_token, jwt_token, is_revoked, expires_at). The `jwt_token` TEXT column
holds the serialized access token; we model the serialized token structurally
as `AccessToken` so that the exact-value SQL comparison `jwt_token = ?` is
decidable equality on tokens. -/
structure JwtPayload where
  userId : String
  deviceId : String
deriving DecidableEq, Repr

/-- A serialized access-token value as it travels between client, middleware
and the `jwt_token` column: either a malformed string, or a well-formed token
signed with some secret, embedding a payload and an expiry instant
(`jwt.sign` with `expiresIn`). -/
inductive AccessToken where
  | malformed (raw : String)
  | signed (payload : JwtPayload) (exp : Nat) (sig : String)
deriving DecidableEq, Repr

structure TokenRow where
  id : Nat
  user_id : String
  device_id : String
  refresh_token : String
  jwt_token : AccessToken
  is_revoked : Bool
  expires_at : Nat
deriving DecidableEq, Repr

/-- The `tokens` table; INSERT appends, SELECT reads in row order. -/
abbrev TokenDB := List TokenRow

/-- Auto-increment id supply: strictly larger than every id in the table. -/
def freshTokenId (db : TokenDB) : Nat :=
  (db.map (fun r => r.id)).foldr max 0 + 1

namespace Token

/-- Token.create: INSERT INTO tokens (user_id, device_id, refresh_token,
jwt_token, expires_at) VALUES (?, ?, ?, ?, ?); returns insertId. -/
def create (db : TokenDB) (userId deviceId : String) (refreshToken : String)
    (jwtToken : AccessToken) (expiresAt : Nat) : TokenDB × Nat :=
  let newId := freshTokenId db
  (db ++ [⟨newId, userId, deviceId, refreshToken, jwtToken, false, expiresAt⟩], newId)

/-- Token.findByRefreshToken: SELECT * FROM tokens WHERE refresh_token = ?
AND is_revoked = FALSE AND expires_at > NOW(); returns rows[0]. -/
def findByRefreshToken (now : Nat) (db : TokenDB) (refreshToken : String) :
    Option TokenRow :=
  db.find? (fun r =>
    r.refresh_token = refreshToken && r.is_revoked = false && decide (now < r.expires_at))

/-- Token.isJwtRevoked: SELECT id FROM tokens WHERE jwt_token = ? AND
is_revoked = TRUE LIMIT 1; returns rows.length > 0. -/
def isJwtRevoked (db : TokenDB) (jwtToken : AccessToken) : Bool :=
  db.any (fun r => r.jwt_token = jwtToken && r.is_revoked = true)

/-- The per-row effect of Token.revokeByDevice's UPDATE statement. -/
def revokeRow (userId deviceId : String) (r : TokenRow) : TokenRow :=
  if r.user_id = userId ∧ r.device_id = deviceId ∧ r.is_revoked = false then
    { r with is_revoked := true }
  else r

/-- Token.revokeByDevice: UPDATE tokens SET is_revoked = TRUE WHERE
user_id = ? AND device_id = ? AND is_revoked = FALSE; returns affectedRows. -/
def revokeByDevice (db : TokenDB) (userId deviceId : String) : TokenDB × Nat :=
  (db.map (revokeRow userId deviceId),
   db.countP (fun r =>
     r.user_id = userId && r.device_id = deviceId && r.is_revoked = false))

/-- Token.revokeAllUserTokens: UPDATE tokens SET is_revoked = TRUE WHERE
user_id = ? AND is_revoked = FALSE; returns affectedRows. -/
def revokeAllUserTokens (db : TokenDB) (userId : String) : TokenDB × Nat :=
  (db.map (fun r =>
     if r.user_id = userId ∧ r.is_revoked = false then { r with is_revoked := true } else r),
   db.countP (fun r => r.user_id = userId && r.is_revoked = false))

/-- Token.updateJwtToken: UPDATE tokens SET jwt_token = ? WHERE
refresh_token = ?; returns affectedRows > 0. -/
def updateJwtToken (db : TokenDB) (refreshToken : String)
    (newJwtToken : AccessToken) : TokenDB × Bool :=
  (db.map (fun r =>
     if r.refresh_token = refreshToken then { r with jwt_token := newJwtToken } else r),
   db.any (fun r => r.refresh_token = refreshToken))

end Token

/-- jwtConfig.expiresIn: 10 minutes, in seconds. -/
def jwtExpiresIn : Nat := 600

/-- jwtConfig.refreshTokenExpiresDays: 7 days, in seconds. -/
def refreshTokenTtl : Nat := 604800

structure TokenPair where
  token : AccessToken
  refreshToken : String
deriving DecidableEq, Repr

namespace TokenService

/-- TokenService.generateTokenPair: signs a JWT embedding userId/deviceId
with expiry now + 10m, draws a fresh random refresh secret (injected here as
`freshRt`), computes expiresAt = now + 7d, persists via Token.create, and
returns both plaintext values. -/
def generateTokenPair (secret : String) (now : Nat) (freshRt : String)
    (userId deviceId : String) (db : TokenDB) : TokenDB × TokenPair :=
  let jwtToken := AccessToken.signed ⟨userId, deviceId⟩ (now + jwtExpiresIn) secret
  let expiresAt := now + refreshTokenTtl
  let created := Token.create db userId deviceId freshRt jwtToken expiresAt
  (created.1, ⟨jwtToken, freshRt⟩)

/-- TokenService.refreshAccessToken: find the live row for the refresh token;
if none, throw 'Invalid or expired refresh token'; else sign a new JWT with
the row's userId/deviceId and overwrite the stored jwt_token in place. -/
def refreshAccessToken (secret : String) (now : Nat) (db : TokenDB)
    (refreshToken : String) : Except String (TokenDB × AccessToken) :=
  match Token.findByRefreshToken now db refreshToken with
  | none => .error "Invalid or expired refresh token"
  | some tokenRecord =>
    let newJwtToken :=
      AccessToken.signed ⟨tokenRecord.user_id, tokenRecord.device_id⟩
        (now + jwtExpiresIn) secret
    let updated := Token.updateJwtToken db refreshToken newJwtToken
    .ok (updated.1, newJwtToken)

/-- TokenService.revokeDeviceTokens: delegates to Token.revokeByDevice,
discarding the affected-row count; never throws. -/
def revokeDeviceTokens (db : TokenDB) (userId deviceId : String) : TokenDB :=
  (Token.revokeByDevice db userId deviceId).1

/-- TokenService.isTokenRevoked: delegates to Token.isJwtRevoked. -/
def isTokenRevoked (db : TokenDB) (token : AccessToken) : Bool :=
  Token.isJwtRevoked db token

end TokenService

/-- Whether a token row is live (not revoked, not expired) at instant `now`. -/
def liveRow (now : Nat) (r : TokenRow) : Bool :=
  r.is_revoked = false && decide (now < r.expires_at)

/-- Number of live rows for a (userId, deviceId) pair. -/
def liveCount (db : TokenDB) (userId deviceId : String) (now : Nat) : Nat :=
  db.countP (fun r => r.user_id = userId && r.device_id = deviceId && liveRow now r)

namespace AuthService

/-- AuthService.signin: verifies the password (bcrypt.compare, modelled as an
opaque boolean outcome `credsOk`); on success issues a fresh token pair for
the device, on failure throws 'Invalid credentials'. -/
def signin (credsOk : Bool) (secret : String) (now : Nat) (freshRt : String)
    (userId deviceId : String) (db : TokenDB) :
    Except String (TokenDB × TokenPair) :=
  if credsOk then
    .ok (TokenService.generateTokenPair secret now freshRt userId deviceId db)
  else .error "Invalid credentials"

end AuthService

/-! ## The auth middleware -/

/-- A thrown JS error as observed by a catch block: its `name` and `message`. -/
structure JsError where
  name : String
  message : String
deriving DecidableEq, Repr

/-- jwt.verify(token, secret): throws JsonWebTokenError on a malformed token
or signature mismatch, TokenExpiredError when the embedded expiry has passed,
and returns the payload otherwise. -/
def jwtVerify (secret : String) (now : Nat) :
    AccessToken → Except JsError JwtPayload
  | .malformed _ => .error ⟨"JsonWebTokenError", "jwt malformed"⟩
  | .signed payload exp sig =>
    if sig = secret then
      if exp ≤ now then .error ⟨"TokenExpiredError", "jwt expired"⟩
      else .ok payload
    else .error ⟨"JsonWebTokenError", "invalid signature"⟩

/-- TokenService.verifyToken: wraps jwt.verify in a try/catch whose catch-all
rethrows a plain Error with message 'Invalid token' (the error name of a plain
JS Error object is 'Error'). -/
def TokenService.verifyToken (secret : String) (now : Nat) (token : AccessToken) :
    Except JsError JwtPayload :=
  match jwtVerify secret now token with
  | .ok decoded => .ok decoded
  | .error _ => .error ⟨"Error", "Invalid token"⟩

/-- The observable outcome of the auth middleware: which 401 body was sent,
or which (userId, deviceId) was attached to the request. -/
inductive AuthOutcome where
  | noToken
  | revoked
  | tokenExpired
  | invalidToken
  | authorized (userId deviceId : String)
deriving DecidableEq, Repr

/-- authMiddleware: extracts the bearer token (modelled as `Option AccessToken`
after the Bearer-header split), answers 401 'No token provided' when absent,
401 'Token has been revoked' when the store blacklists it, then verifies it;
the catch block answers TOKEN_EXPIRED only when the caught error is named
TokenExpiredError, else 401 'Invalid token'. -/
def authMiddleware (secret : String) (now : Nat) (db : TokenDB)
    (bearer : Option AccessToken) : AuthOutcome :=
  match bearer with
  | none => .noToken
  | some token =>
    if TokenService.isTokenRevoked db token then .revoked
    else
      match TokenService.verifyToken secret now token with
      | .ok decoded => .authorized decoded.userId decoded.deviceId
      | .error e =>
        if e.name = "TokenExpiredError" then .tokenExpired else .invalidToken

/-! ## The files table and blob store -/

/-- A row of the `files` table. -/
structure FileRow where
  id : Nat
  user_id : String
  original_name : String
  storage_name : String
  extension : String
  mime_type : String
  size : Nat
  upload_date : Nat
deriving DecidableEq, Repr

abbrev FileDB := List FileRow

/-- The upload-dir blob store, abstracted to the set of stored names. -/
abbrev Disk := List String

/-- fs.writeFile: creates or overwrites the named blob. -/
def diskWrite (disk : Disk) (name : String) : Disk :=
  if name ∈ disk then disk else name :: disk

/-- fs.unlink wrapped in the catch-and-continue pattern the service uses for
best-effort deletes: removes the blob when present, no-op when absent. -/
def diskUnlinkQuiet (disk : Disk) (name : String) : Disk :=
  disk.erase name

/-- Incoming multipart file data (multer): originalname, mimetype, size; the
extension the service derives from originalname. -/
structure UploadData where
  originalName : String
  extension : String
  mimeType : String
  size : Nat
deriving DecidableEq, Repr

/-- Auto-increment id supply for the files table. -/
def freshFileId (db : FileDB) : Nat :=
  (db.map (fun r => r.id)).foldr max 0 + 1

namespace File

/-- File.create: INSERT INTO files (...); returns the created record. -/
def create (db : FileDB) (userId : String) (d : UploadData)
    (storageName : String) (now : Nat) : FileDB × FileRow :=
  let r : FileRow :=
    ⟨freshFileId db, userId, d.originalName, storageName, d.extension,
     d.mimeType, d.size, now⟩
  (db ++ [r], r)

/-- File.findById: SELECT * FROM files WHERE id = ? AND user_id = ?. -/
def findById (db : FileDB) (id : Nat) (userId : String) : Option FileRow :=
  db.find? (fun r => r.id = id && r.user_id = userId)

/-- File.delete: DELETE FROM files WHERE id = ? AND user_id = ?;
returns affectedRows > 0. -/
def deleteRow (db : FileDB) (id : Nat) (userId : String) : FileDB × Bool :=
  (db.filter (fun r => !(r.id = id && r.user_id = userId)),
   db.any (fun r => r.id = id && r.user_id = userId))

/-- File.update: UPDATE files SET original_name, storage_name, extension,
mime_type, size, upload_date = CURRENT_TIMESTAMP WHERE id = ? AND
user_id = ?; returns affectedRows > 0. -/
def update (db : FileDB) (id : Nat) (userId : String) (d : UploadData)
    (storageName : String) (now : Nat) : FileDB × Bool :=
  (db.map (fun r =>
     if r.id = id ∧ r.user_id = userId then
       { r with
         original_name := d.originalName
         storage_name := storageName
         extension := d.extension
         mime_type := d.mimeType
         size := d.size
         upload_date := now }
     else r),
   db.any (fun r => r.id = id && r.user_id = userId))

end File

/-! ## Event traces of the file persistence manager -/

/-- Durable effects in the order an operation performs them. -/
inductive Event where
  | blobWrite (name : String)
  | blobDelete (name : String)
  | rowInsert (id : Nat) (name : String)
  | rowUpdate (id : Nat) (name : String)
  | rowDelete (id : Nat)
deriving DecidableEq, Repr

/-- The (row id, storage name) references a metadata table holds. -/
def refsOf (db : FileDB) : List (Nat × String) :=
  db.map (fun r => (r.id, r.storage_name))

/-- Replays the row events of a trace over a reference table. -/
def rowRefs (refs : List (Nat × String)) : List Event → List (Nat × String)
  | [] => refs
  | .rowInsert id name :: es => rowRefs (refs ++ [(id, name)]) es
  | .rowUpdate id name :: es =>
    rowRefs (refs.map (fun p => if p.1 = id then (id, name) else p)) es
  | .rowDelete id :: es => rowRefs (refs.filter (fun p => p.1 ≠ id)) es
  | .blobWrite _ :: es => rowRefs refs es
  | .blobDelete _ :: es => rowRefs refs es

/-- Every metadata row creation or update referencing a blob name is preceded
in the trace by the write of that blob. -/
def writeBeforeRef (tr : List Event) : Prop :=
  ∀ j id name,
    (tr.get? j = some (.rowInsert id name) ∨ tr.get? j = some (.rowUpdate id name)) →
    ∃ i, i < j ∧ tr.get? i = some (.blobWrite name)

/-- Every blob delete happens only once no metadata row references that name
any more (references replayed from the initial table through the preceding
events). -/
def deleteAfterDeref (refs0 : List (Nat × String)) (tr : List Event) : Prop :=
  ∀ i name, tr.get? i = some (.blobDelete name) →
    ∀ p ∈ rowRefs refs0 (tr.take i), p.2 ≠ name

/-- Result of a file-persistence operation: the payload (the record the
service returns, if any), the resulting table and disk, and the ordered
trace of durable effects it performed. -/
instance : DecidableEq (Except String (Option FileRow)) := fun a b =>
  match a, b with
  | .ok x, .ok y => decidable_of_iff (x = y) (by simp)
  | .error x, .error y => decidable_of_iff (x = y) (by simp)
  | .ok _, .error _ => isFalse (by simp)
  | .error _, .ok _ => isFalse (by simp)

structure OpResult where
  res : Except String (Option FileRow)
  db : FileDB
  disk : Disk
  trace : List Event
deriving DecidableEq, Repr

namespace FileService

/-- FileService.saveFile: writes the blob under the fresh storage name
(`storageName` injects the generated UUID name; `writeOk` is whether
fs.writeFile succeeds), and only then inserts the metadata row; a write
failure propagates before File.create runs. -/
def saveFile (db : FileDB) (disk : Disk) (now : Nat) (fd : UploadData)
    (userId storageName : String) (writeOk : Bool) : OpResult :=
  if writeOk then
    let disk1 := diskWrite disk storageName
    let created := File.create db userId fd storageName now
    ⟨.ok (some created.2), created.1, disk1,
     [.blobWrite storageName, .rowInsert created.2.id storageName]⟩
  else ⟨.error "EIO", db, disk, []⟩

/-- FileService.getFileInfo: File.findById, throwing 'File not found' when
no row matches the (id, owner) pair. -/
def getFileInfo (db : FileDB) (fileId : Nat) (userId : String) :
    Except String FileRow :=
  match File.findById db fileId userId with
  | none => .error "File not found"
  | some f => .ok f

/-- FileService.getFileForDownload: File.findById, then fs.access on the
blob; 'File not found' when no row matches, 'File not found on disk' when
the row exists but the blob does not. -/
def getFileForDownload (db : FileDB) (disk : Disk) (fileId : Nat)
    (userId : String) : Except String (String × FileRow) :=
  match File.findById db fileId userId with
  | none => .error "File not found"
  | some f =>
    if f.storage_name ∈ disk then .ok (f.storage_name, f)
    else .error "File not found on disk"

/-- FileService.deleteFile: File.findById (throwing 'File not found' when
absent), then fs.unlink on the blob with a catch-and-continue, then
File.delete on the row. The blob is deleted before the row. -/
def deleteFile (db : FileDB) (disk : Disk) (fileId : Nat) (userId : String) :
    OpResult :=
  match File.findById db fileId userId with
  | none => ⟨.error "File not found", db, disk, []⟩
  | some f =>
    let disk1 := diskUnlinkQuiet disk f.storage_name
    let deleted := File.deleteRow db fileId userId
    ⟨.ok none, deleted.1, disk1,
     (if f.storage_name ∈ disk then [Event.blobDelete f.storage_name] else [])
       ++ [Event.rowDelete fileId]⟩

/-- FileService.updateFile, with the metadata table possibly differing
between the initial File.findById (state `dbFind`) and the UPDATE statement
(state `dbUpd`), as under a concurrent delete of the same row — the
situation the rollback branch of the source handles. Order of effects,
faithful to the source: write the new blob; run File.update; if it affected
no row, unlink the new blob and throw 'Failed to update file'; otherwise
best-effort unlink the old blob and re-read the row (the non-null assertion
on the re-read is modelled by the `Option` payload). -/
def updateFileRun (dbFind dbUpd : FileDB) (disk : Disk) (now : Nat)
    (fileId : Nat) (userId : String) (fd : UploadData) (storageName : String)
    (writeOk : Bool) : OpResult :=
  match File.findById dbFind fileId userId with
  | none => ⟨.error "File not found", dbFind, disk, []⟩
  | some oldFile =>
    if writeOk then
      let disk1 := diskWrite disk storageName
      let upd := File.update dbUpd fileId userId fd storageName now
      if upd.2 then
        let disk2 := diskUnlinkQuiet disk1 oldFile.storage_name
        ⟨.ok (File.findById upd.1 fileId userId), upd.1, disk2,
         [.blobWrite storageName, .rowUpdate fileId storageName,
          .blobDelete oldFile.storage_name]⟩
      else
        ⟨.error "Failed to update file", upd.1, disk1.erase storageName,
         [.blobWrite storageName, .blobDelete storageName]⟩
    else ⟨.error "EIO", dbUpd, disk, []⟩

/-- FileService.updateFile in a sequential (single-state) execution. -/
def updateFile (db : FileDB) (disk : Disk) (now : Nat) (fileId : Nat)
    (userId : String) (fd : UploadData) (storageName : String)
    (writeOk : Bool) : OpResult :=
  updateFileRun db db disk now fileId userId fd storageName writeOk

end FileService

/-! ## Listing with pagination -/

/-- ORDER BY upload_date DESC, as a relation on rows. -/
def uploadDesc (a b : FileRow) : Prop := b.upload_date ≤ a.upload_date

instance : DecidableRel uploadDesc := fun a b => Nat.decLe b.upload_date a.upload_date

instance : IsTotal FileRow uploadDesc := ⟨fun a b => Nat.le_total b.upload_date a.upload_date⟩

instance : IsTrans FileRow uploadDesc :=
  ⟨fun _ _ _ hab hbc => le_trans hbc hab⟩

/-- WHERE user_id = ? . -/
def ownRows (db : FileDB) (userId : String) : FileDB :=
  db.filter (fun r => r.user_id = userId)

/-- The result order of ORDER BY upload_date DESC (stable sort). -/
def sortByUploadDesc (l : FileDB) : FileDB :=
  l.insertionSort uploadDesc

/-- File.findByUserWithPagination: offset = (page - 1) * limit; SELECT with
ORDER BY upload_date DESC LIMIT ? OFFSET ?, plus the COUNT query. A negative
LIMIT or OFFSET placeholder is a MySQL error, surfaced as a thrown query
error. -/
def findByUserWithPagination (db : FileDB) (userId : String)
    (page limit : Int) : Except String (List FileRow × Nat) :=
  let offset : Int := (page - 1) * limit
  if offset < 0 ∨ limit < 0 then .error "Negative LIMIT or OFFSET"
  else
    .ok (((sortByUploadDesc (ownRows db userId)).drop offset.toNat).take limit.toNat,
         (ownRows db userId).length)

/-- JS `parseInt(q) || d` as the list controller applies it to a query
parameter: parseInt yields NaN (`none`) on a missing or non-numeric string;
NaN and 0 are falsy and fall back to the default, every other number —
negatives included — is truthy and passes through. -/
def jsOr (v : Option Int) (dflt : Int) : Int :=
  match v with
  | none => dflt
  | some n => if n = 0 then dflt else n

/-- FileController.list: page = parseInt(query.page) or 1, listSize =
parseInt(query.list_size) or 10, then FileService.getFileList, which
delegates to File.findByUserWithPagination. -/
def FileController.list (db : FileDB) (userId : String)
    (pageQ sizeQ : Option Int) : Except String (List FileRow × Nat) :=
  findByUserWithPagination db userId (jsOr pageQ 1) (jsOr sizeQ 10)

/-! ## Helper lemmas -/

theorem revokeRow_of_match (userId deviceId : String) (r : TokenRow)
    (hu : r.user_id = userId) (hd : r.device_id = deviceId)
    (hl : r.is_revoked = false) :
    Token.revokeRow userId deviceId r = { r with is_revoked := true } := by
  simp [Token.revokeRow, hu, hd, hl]

theorem revokeRow_of_no_match (userId deviceId : String) (r : TokenRow)
    (h : ¬(r.user_id = userId ∧ r.device_id = deviceId ∧ r.is_revoked = false)) :
    Token.revokeRow userId deviceId r = r := by
  simp [Token.revokeRow, h]

theorem revokeRow_idem (userId deviceId : String) (r : TokenRow) :
    Token.revokeRow userId deviceId (Token.revokeRow userId deviceId r)
      = Token.revokeRow userId deviceId r := by
  unfold Token.revokeRow
  by_cases h : r.user_id = userId ∧ r.device_id = deviceId ∧ r.is_revoked = false
  · simp [h]
  · simp [h]

theorem revokeRow_not_live (userId deviceId : String) (r : TokenRow) :
    ¬((Token.revokeRow userId deviceId r).user_id = userId
      ∧ (Token.revokeRow userId deviceId r).device_id = deviceId
      ∧ (Token.revokeRow userId deviceId r).is_revoked = false) := by
  unfold Token.revokeRow
  by_cases h : r.user_id = userId ∧ r.device_id = deviceId ∧ r.is_revoked = false
  · simp [h]
  · simp [h]

/-! ## Claim theorems -/

/-- C1: revokeDevice(userId, deviceId) changes exactly the currently
non-revoked rows whose user_id and device_id both match (the table keeps its
length, a row position changes iff its row matched and was live, and a
matching live row becomes the same row with is_revoked set), so every row of
another (user, device) pair is untouched and a pair issued to the same user
on another device stays valid; revoking again is a no-op affecting zero rows
and is not an error. -/
theorem revokeDevice_exact_frame_idempotent (userId deviceId : String)
    (db : TokenDB) :
    ((Token.revokeByDevice db userId deviceId).1.length = db.length) ∧
    (∀ i r, db.get? i = some r →
      (((Token.revokeByDevice db userId deviceId).1.get? i ≠ some r) ↔
        (r.user_id = userId ∧ r.device_id = deviceId ∧ r.is_revoked = false))) ∧
    (∀ i r, db.get? i = some r → r.user_id = userId → r.device_id = deviceId →
      r.is_revoked = false →
      (Token.revokeByDevice db userId deviceId).1.get? i
        = some { r with is_revoked := true }) ∧
    (Token.revokeByDevice (Token.revokeByDevice db userId deviceId).1
        userId deviceId
      = ((Token.revokeByDevice db userId deviceId).1, 0)) := by
  refine ⟨by simp [Token.revokeByDevice], ?_, ?_, ?_⟩
  · intro i r hi
    rw [Token.revokeByDevice]
    simp only [List.get?_map, hi, Option.map_some']
    constructor
    · intro hne
      by_contra h
      exact hne (by rw [revokeRow_of_no_match userId deviceId r h])
    · intro h hEq
      rw [revokeRow_of_match userId deviceId r h.1 h.2.1 h.2.2] at hEq
      have hrev : r.is_revoked = true := by
        have := congrArg (fun o => (Option.map TokenRow.is_revoked o)) hEq
        simpa using this.symm
      rw [h.2.2] at hrev
      exact Bool.false_ne_true hrev
  · intro i r hi hu hd hl
    rw [Token.revokeByDevice]
    simp only [List.get?_map, hi, Option.map_some']
    rw [revokeRow_of_match userId deviceId r hu hd hl]
  · rw [Token.revokeByDevice, Token.revokeByDevice]
    refine Prod.ext ?_ ?_
    · simp only [List.map_map]
      exact List.map_congr_left (fun r _ => revokeRow_idem userId deviceId r)
    · simp only
      rw [List.countP_eq_zero]
      intro r hr
      rcases List.mem_map.mp hr with ⟨s, _, rfl⟩
      have := revokeRow_not_live userId deviceId s
      simp only [Bool.and_eq_true, decide_eq_true_eq]
      intro hcon
      exact this ⟨hcon.1.1, hcon.1.2, hcon.2⟩

/-- Witness for C1: a concrete live row for the pair is flipped to revoked
at its position, and re-revoking the resulting table affects zero rows. -/
theorem revokeDevice_exact_frame_idempotent_witness :
    (Token.revokeByDevice
        [⟨1, "u", "d", "r", AccessToken.malformed "x", false, 10⟩] "u" "d").1.get? 0
      = some ⟨1, "u", "d", "r", AccessToken.malformed "x", true, 10⟩ ∧
    Token.revokeByDevice
        (Token.revokeByDevice
          [⟨1, "u", "d", "r", AccessToken.malformed "x", false, 10⟩] "u" "d").1 "u" "d"
      = ((Token.revokeByDevice
          [⟨1, "u", "d", "r", AccessToken.malformed "x", false, 10⟩] "u" "d").1, 0) := by
  have h := revokeDevice_exact_frame_idempotent "u" "d"
    [⟨1, "u", "d", "r", AccessToken.malformed "x", false, 10⟩]
  exact ⟨h.2.2.1 0 ⟨1, "u", "d", "r", AccessToken.malformed "x", false, 10⟩
      rfl rfl rfl rfl, h.2.2.2⟩

/-- C3: rotate fails — with the single error value
'Invalid or expired refresh token' — exactly when no token row with that
refresh token is both non-revoked and unexpired, so a never-issued, an
already-revoked and an expired refresh token all produce the literally
identical observable outcome. -/
theorem rotate_single_error_kind (secret : String) (now : Nat) (db : TokenDB)
    (refreshToken : String) :
    TokenService.refreshAccessToken secret now db refreshToken
        = .error "Invalid or expired refresh token" ↔
      ∀ r ∈ db, ¬(r.refresh_token = refreshToken ∧ r.is_revoked = false
        ∧ now < r.expires_at) := by
  unfold TokenService.refreshAccessToken
  cases h : Token.findByRefreshToken now db refreshToken with
  | none =>
    unfold Token.findByRefreshToken at h
    rw [List.find?_eq_none] at h
    simp only [true_iff]
    intro r hr
    have := h r hr
    simpa using this
  | some rec =>
    have hmem := List.mem_of_find?_eq_some h
    have hp := List.find?_some h
    simp only [Bool.and_eq_true, decide_eq_true_eq] at hp
    constructor
    · intro hfalse
      exact absurd hfalse (by simp)
    · intro hall
      exact absurd ⟨hp.1.1, hp.1.2, hp.2⟩ (hall rec hmem)

/-- Witness for C3: rotating a refresh token against an empty token store
fails with the single error value. -/
theorem rotate_single_error_kind_witness :
    TokenService.refreshAccessToken "s" 5 [] "r"
      = .error "Invalid or expired refresh token" :=
  (rotate_single_error_kind "s" 5 [] "r").mpr (by simp)

/-- C4: when no row matches the exact (fileId, callerId) pair — which covers
both a file owned by a different user and a wholly non-existent id — get,
resolve-for-download, update and delete each produce the one fixed outcome:
the same 'File not found' error, no table change, no disk change, no durable
effect; so an id owned by another user is observationally identical to a
missing id. -/
theorem fileOps_not_owned_like_missing (db : FileDB) (disk : Disk)
    (now fileId : Nat) (userId : String) (fd : UploadData)
    (storageName : String) (writeOk : Bool)
    (h : ∀ r ∈ db, ¬(r.id = fileId ∧ r.user_id = userId)) :
    FileService.getFileInfo db fileId userId = .error "File not found" ∧
    FileService.getFileForDownload db disk fileId userId
      = .error "File not found" ∧
    FileService.updateFile db disk now fileId userId fd storageName writeOk
      = ⟨.error "File not found", db, disk, []⟩ ∧
    FileService.deleteFile db disk fileId userId
      = ⟨.error "File not found", db, disk, []⟩ := by
  have hfind : File.findById db fileId userId = none := by
    unfold File.findById
    rw [List.find?_eq_none]
    intro r hr
    simpa using h r hr
  refine ⟨?_, ?_, ?_, ?_⟩ <;>
    simp [FileService.getFileInfo, FileService.getFileForDownload,
      FileService.updateFile, FileService.updateFileRun,
      FileService.deleteFile, hfind]

/-- Witness for C4: a store holding only a file of user alice, queried by
user bob for that same id, answers exactly like an empty store. -/
theorem fileOps_not_owned_like_missing_witness :
    FileService.getFileInfo
        [⟨1, "alice", "a.txt", "s.bin", ".txt", "text", 3, 0⟩] 1 "bob"
      = .error "File not found" ∧
    FileService.deleteFile
        [⟨1, "alice", "a.txt", "s.bin", ".txt", "text", 3, 0⟩] ["s.bin"] 1 "bob"
      = ⟨.error "File not found",
         [⟨1, "alice", "a.txt", "s.bin", ".txt", "text", 3, 0⟩], ["s.bin"], []⟩ := by
  have h := fileOps_not_owned_like_missing
    [⟨1, "alice", "a.txt", "s.bin", ".txt", "text", 3, 0⟩] ["s.bin"] 0 1 "bob"
    ⟨"b.txt", ".txt", "text", 4⟩ "n.bin" true (by decide)
  exact ⟨h.1, h.2.2.2⟩

/-- C2: if the metadata-row update of updateFile affects no row (the row for
the pair is gone from the table the UPDATE runs against), the newly written
blob is unlinked again as compensation, the operation reports the failure
'Failed to update file', the metadata table is left exactly as the UPDATE
found it, the disk is left exactly as before the operation, and in
particular the old blob is still present. -/
theorem updateFile_rollback (dbFind dbUpd : FileDB) (disk : Disk)
    (now fileId : Nat) (userId : String) (fd : UploadData)
    (storageName : String) (oldFile : FileRow)
    (hfound : File.findById dbFind fileId userId = some oldFile)
    (hgone : ∀ r ∈ dbUpd, ¬(r.id = fileId ∧ r.user_id = userId))
    (hfresh : storageName ∉ disk) :
    FileService.updateFileRun dbFind dbUpd disk now fileId userId fd
        storageName true
      = ⟨.error "Failed to update file", dbUpd, disk,
         [.blobWrite storageName, .blobDelete storageName]⟩ ∧
    (oldFile.storage_name ∈ disk →
      oldFile.storage_name ∈ (FileService.updateFileRun dbFind dbUpd disk now
        fileId userId fd storageName true).disk) := by
  have hupd2 : (File.update dbUpd fileId userId fd storageName now).2 = false := by
    unfold File.update
    simp only [List.any_eq_false, Bool.and_eq_true, decide_eq_true_eq]
    intro r hr
    simpa using hgone r hr
  have hupd1 : (File.update dbUpd fileId userId fd storageName now).1 = dbUpd := by
    unfold File.update
    simp only
    have hcongr : dbUpd.map (fun r =>
        if r.id = fileId ∧ r.user_id = userId then
          { r with
            original_name := fd.originalName
            storage_name := storageName
            extension := fd.extension
            mime_type := fd.mimeType
            size := fd.size
            upload_date := now }
        else r) = dbUpd.map id :=
      List.map_congr_left (fun r hr => by simp [hgone r hr])
    rw [hcongr, List.map_id]
  have main : FileService.updateFileRun dbFind dbUpd disk now fileId userId fd
      storageName true
      = ⟨.error "Failed to update file", dbUpd, disk,
         [.blobWrite storageName, .blobDelete storageName]⟩ := by
    unfold FileService.updateFileRun
    rw [hfound]
    simp only [if_true, hupd2, Bool.false_eq_true, if_false, hupd1]
    have hdisk : (diskWrite disk storageName).erase storageName = disk := by
      unfold diskWrite
      rw [if_neg hfresh, List.erase_cons_head]
    rw [hdisk]
  refine ⟨main, ?_⟩
  intro hm
  rw [main]
  exact hm

/-- Witness for C2: the row was found, then concurrently deleted before the
UPDATE ran; the operation fails, the new blob is rolled back and the old
blob survives. -/
theorem updateFile_rollback_witness :
    FileService.updateFileRun
        [⟨1, "u", "a.txt", "old.bin", ".txt", "text", 3, 0⟩] [] ["old.bin"]
        7 1 "u" ⟨"b.txt", ".txt", "text", 4⟩ "new.bin" true
      = ⟨.error "Failed to update file", [], ["old.bin"],
         [.blobWrite "new.bin", .blobDelete "new.bin"]⟩ ∧
    "old.bin" ∈ (FileService.updateFileRun
        [⟨1, "u", "a.txt", "old.bin", ".txt", "text", 3, 0⟩] [] ["old.bin"]
        7 1 "u" ⟨"b.txt", ".txt", "text", 4⟩ "new.bin" true).disk := by
  have h := updateFile_rollback
    [⟨1, "u", "a.txt", "old.bin", ".txt", "text", 3, 0⟩] [] ["old.bin"]
    7 1 "u" ⟨"b.txt", ".txt", "text", 4⟩ "new.bin"
    ⟨1, "u", "a.txt", "old.bin", ".txt", "text", 3, 0⟩
    (by decide) (by decide) (by decide)
  exact ⟨h.1, h.2 (by decide)⟩

/-- C5 counterexample: signing in twice from the same device (valid
credentials both times, fresh refresh secrets r1 and r2) reaches a token
store holding two simultaneously live — non-revoked, unexpired — records for
the same (userId, deviceId) pair, so the at-most-one-live-record invariant
fails on a state reachable by issuance alone. -/
theorem reissue_two_live_records_counterexample :
    AuthService.signin true "s" 0 "r2" "u" "d"
        (TokenService.generateTokenPair "s" 0 "r1" "u" "d" []).1
      = .ok (TokenService.generateTokenPair "s" 0 "r2" "u" "d"
          (TokenService.generateTokenPair "s" 0 "r1" "u" "d" []).1) ∧
    liveCount (TokenService.generateTokenPair "s" 0 "r2" "u" "d"
        (TokenService.generateTokenPair "s" 0 "r1" "u" "d" []).1).1 "u" "d" 0 = 2 ∧
    ¬(liveCount (TokenService.generateTokenPair "s" 0 "r2" "u" "d"
        (TokenService.generateTokenPair "s" 0 "r1" "u" "d" []).1).1 "u" "d" 0 ≤ 1) := by
  refine ⟨rfl, by decide, by decide⟩

/-- C5 amended: issuance (the effect of signup/signin) always inserts one
fresh live record for the pair without revoking earlier ones, so the number
of live (userId, deviceId) records grows by exactly one per issuance and
several may coexist; revokeDevice then revokes them all at once, bringing
the live count for the pair to zero. -/
theorem issue_adds_live_record_revoke_clears (secret : String) (now : Nat)
    (freshRt userId deviceId : String) (db : TokenDB) :
    liveCount (TokenService.generateTokenPair secret now freshRt userId
        deviceId db).1 userId deviceId now
      = liveCount db userId deviceId now + 1 ∧
    liveCount (Token.revokeByDevice db userId deviceId).1 userId deviceId now
      = 0 := by
  constructor
  · unfold TokenService.generateTokenPair Token.create liveCount
    simp only [List.countP_append]
    have : refreshTokenTtl = 604800 := rfl
    simp [liveRow, refreshTokenTtl]
  · unfold liveCount Token.revokeByDevice
    rw [List.countP_eq_zero]
    intro r hr
    rcases List.mem_map.mp hr with ⟨s, _, rfl⟩
    have hnl := revokeRow_not_live userId deviceId s
    simp only [Bool.and_eq_true, decide_eq_true_eq, liveRow]
    intro hcon
    exact hnl ⟨hcon.1.1, hcon.1.2, by simpa using hcon.2.1⟩

/-- C6 counterexample: after issuance the created token row stores, in its
jwt_token column, a value equal to the plaintext access token returned to
the caller — the store does contain the plaintext access token, not merely
an opaque digest of it. -/
theorem stored_plaintext_access_token_counterexample :
    ((TokenService.generateTokenPair "s" 0 "r1" "u" "d" []).1.get? 0).map
        TokenRow.jwt_token
      = some (TokenService.generateTokenPair "s" 0 "r1" "u" "d" []).2.token := by
  decide

/-- C6 amended: issue(userId, deviceId) appends exactly one row whose
jwt_token column holds the full plaintext access-token value it returns to
the caller (this stored copy is what the revocation deny-list compares
against by exact value), together with the refresh token and expiry; the
returned pair is that token plus the fresh refresh secret. -/
theorem issue_persists_plaintext_copy (secret : String) (now : Nat)
    (freshRt userId deviceId : String) (db : TokenDB) :
    (TokenService.generateTokenPair secret now freshRt userId deviceId db).1
      = db ++ [⟨freshTokenId db, userId, deviceId, freshRt,
          (TokenService.generateTokenPair secret now freshRt userId deviceId
            db).2.token, false, now + refreshTokenTtl⟩] ∧
    (TokenService.generateTokenPair secret now freshRt userId deviceId db).2
      = ⟨AccessToken.signed ⟨userId, deviceId⟩ (now + jwtExpiresIn) secret,
         freshRt⟩ :=
  ⟨rfl, rfl⟩

/-- C9 counterexample: a negative page parameter is truthy in JS, so
`parseInt(page) || 1` does not normalize it; page = -1 passes through, the
offset (page - 1) * pageSize = -20 is negative, and the listing fails
instead of returning the first default page. -/
theorem list_negative_page_not_normalized_counterexample :
    FileController.list [] "u" (some (-1)) none
      = .error "Negative LIMIT or OFFSET" ∧
    jsOr (some (-1)) 1 = -1 ∧
    (jsOr (some (-1)) 1 - 1) * jsOr (none : Option Int) 10 = -20 := by
  refine ⟨rfl, by decide, by decide⟩

/-- C9 amended: list returns the owner's records ordered by upload time
descending with offset (page - 1) * pageSize and the owner's total count; a
missing/non-numeric page or pageSize and the value 0 are normalized to the
defaults 1 and 10 (so the offset is then non-negative), but strictly
negative values are NOT normalized — they pass through and make the query
fail on a negative offset. -/
theorem list_pagination_amended (db : FileDB) (userId : String)
    (pageQ sizeQ : Option Int)
    (hp : 1 ≤ jsOr pageQ 1) (hs : 1 ≤ jsOr sizeQ 10) :
    FileController.list db userId pageQ sizeQ
      = .ok (((sortByUploadDesc (ownRows db userId)).drop
            ((jsOr pageQ 1 - 1) * jsOr sizeQ 10).toNat).take
            (jsOr sizeQ 10).toNat,
          (ownRows db userId).length) ∧
    List.Sorted uploadDesc (((sortByUploadDesc (ownRows db userId)).drop
        ((jsOr pageQ 1 - 1) * jsOr sizeQ 10).toNat).take
        (jsOr sizeQ 10).toNat) ∧
    (∀ d : Int, jsOr none d = d ∧ jsOr (some 0) d = d) ∧
    0 ≤ (jsOr pageQ 1 - 1) * jsOr sizeQ 10 ∧
    (∀ n : Int, n < 0 → jsOr (some n) 1 = n) := by
  have hoff : 0 ≤ (jsOr pageQ 1 - 1) * jsOr sizeQ 10 :=
    mul_nonneg (by omega) (by omega)
  refine ⟨?_, ?_, ?_, hoff, ?_⟩
  · unfold FileController.list findByUserWithPagination
    rw [if_neg]
    exact not_or.mpr ⟨not_lt.mpr hoff, not_lt.mpr (by omega)⟩
  · have hs1 : List.Sorted uploadDesc (sortByUploadDesc (ownRows db userId)) :=
      List.sorted_insertionSort uploadDesc _
    exact hs1.sublist ((List.take_sublist _ _).trans (List.drop_sublist _ _))
  · intro d
    exact ⟨rfl, by simp [jsOr]⟩
  · intro n hn
    have hne : ¬(n = 0) := by omega
    simp [jsOr, hne]

/-- Witness for the amended C9: page 2 with default page size on an empty
store returns the empty page with total count zero. -/
theorem list_pagination_amended_witness :
    FileController.list [] "u" (some 2) none = .ok ([], 0) :=
  (list_pagination_amended [] "u" (some 2) none (by decide) (by decide)).1

/-- C8: at a well-signed access token past its embedded expiry (signed with
the right secret, exp 600, checked at now 700), the jwt layer reports
TokenExpiredError, but TokenService.verifyToken's catch-all rethrows a plain
Error named 'Error' with message 'Invalid token'; the middleware therefore
never takes its TOKEN_EXPIRED branch and the caller observes the same
invalid-token outcome as for a malformed token. The revoked outcome and the
success outcome stay distinct, so the code exposes two failure kinds where
its own middleware and the spec intend three. -/
theorem expired_token_collapses_to_invalid_token :
    jwtVerify "s" 700 (.signed ⟨"u", "d"⟩ 600 "s")
      = .error ⟨"TokenExpiredError", "jwt expired"⟩ ∧
    TokenService.verifyToken "s" 700 (.signed ⟨"u", "d"⟩ 600 "s")
      = .error ⟨"Error", "Invalid token"⟩ ∧
    authMiddleware "s" 700 [] (some (.signed ⟨"u", "d"⟩ 600 "s"))
      = .invalidToken ∧
    authMiddleware "s" 700 [] (some (.malformed "zzz")) = .invalidToken ∧
    authMiddleware "s" 700
        [⟨1, "u", "d", "r", .signed ⟨"u", "d"⟩ 9999 "s", true, 10⟩]
        (some (.signed ⟨"u", "d"⟩ 9999 "s")) = .revoked ∧
    authMiddleware "s" 700 [] (some (.signed ⟨"u", "d"⟩ 9999 "s"))
      = .authorized "u" "d" :=
  ⟨rfl, rfl, rfl, rfl, rfl, rfl⟩

/-- The access token generateTokenPair mints for (userId, deviceId) at
instant `now`. -/
def issuedToken (secret : String) (now : Nat) (userId deviceId : String) :
    AccessToken :=
  AccessToken.signed ⟨userId, deviceId⟩ (now + jwtExpiresIn) secret

theorem revokeRow_jwt_token (userId deviceId : String) (r : TokenRow) :
    (Token.revokeRow userId deviceId r).jwt_token = r.jwt_token := by
  unfold Token.revokeRow
  split <;> rfl

theorem revokeRow_mem_map {db : TokenDB} {userId deviceId : String}
    {r : TokenRow} (hr : r ∈ db.map (Token.revokeRow userId deviceId)) :
    ∃ s ∈ db, r = Token.revokeRow userId deviceId s := by
  rcases List.mem_map.mp hr with ⟨s, hs, rfl⟩
  exact ⟨s, hs, rfl⟩

/-- C10: isTokenRevoked(t) answers true exactly when some row stores a
jwt_token equal by value to t with is_revoked set; and because rotation
overwrites the stored jwt_token in place, an access token issued at `now`
and then replaced by a rotation at `nowR` is reported not revoked even after
revokeDevice revoked every row of the device — so it still passes the
middleware (revocation check plus signature/expiry verification) at any
instant before its natural expiry. -/
theorem rotation_escapes_revocation (secret : String) (now nowR nowV : Nat)
    (userId deviceId rt : String) (db : TokenDB)
    (hrt : ∀ r ∈ db, r.refresh_token ≠ rt)
    (hjwt : ∀ r ∈ db, r.jwt_token ≠ issuedToken secret now userId deviceId)
    (hlive : nowR < now + refreshTokenTtl)
    (hne : now ≠ nowR)
    (hunexp : nowV < now + jwtExpiresIn) :
    (∀ (s : TokenDB) (t : AccessToken),
      Token.isJwtRevoked s t = true ↔
        ∃ r ∈ s, r.jwt_token = t ∧ r.is_revoked = true) ∧
    TokenService.refreshAccessToken secret nowR
        (TokenService.generateTokenPair secret now rt userId deviceId db).1 rt
      = .ok ((Token.updateJwtToken
            (TokenService.generateTokenPair secret now rt userId deviceId
              db).1 rt (issuedToken secret nowR userId deviceId)).1,
          issuedToken secret nowR userId deviceId) ∧
    Token.isJwtRevoked
        (Token.revokeByDevice
          (Token.updateJwtToken
            (TokenService.generateTokenPair secret now rt userId deviceId
              db).1 rt (issuedToken secret nowR userId deviceId)).1
          userId deviceId).1
        (issuedToken secret now userId deviceId) = false ∧
    authMiddleware secret nowV
        (Token.revokeByDevice
          (Token.updateJwtToken
            (TokenService.generateTokenPair secret now rt userId deviceId
              db).1 rt (issuedToken secret nowR userId deviceId)).1
          userId deviceId).1
        (some (issuedToken secret now userId deviceId))
      = .authorized userId deviceId := by
  have hIff : ∀ (s : TokenDB) (t : AccessToken),
      Token.isJwtRevoked s t = true ↔
        ∃ r ∈ s, r.jwt_token = t ∧ r.is_revoked = true := by
    intro s t
    unfold Token.isJwtRevoked
    simp [List.any_eq_true]
  have hfind : Token.findByRefreshToken nowR
      (TokenService.generateTokenPair secret now rt userId deviceId db).1 rt
      = some ⟨freshTokenId db, userId, deviceId, rt,
          issuedToken secret now userId deviceId, false,
          now + refreshTokenTtl⟩ := by
    unfold TokenService.generateTokenPair Token.create Token.findByRefreshToken
    simp only
    rw [List.find?_append]
    have hnone : db.find? (fun r =>
        r.refresh_token = rt && r.is_revoked = false
          && decide (nowR < r.expires_at)) = none := by
      rw [List.find?_eq_none]
      intro r hr
      simp [hrt r hr]
    rw [hnone]
    simp [issuedToken, hlive]
  have hrot : TokenService.refreshAccessToken secret nowR
      (TokenService.generateTokenPair secret now rt userId deviceId db).1 rt
      = .ok ((Token.updateJwtToken
            (TokenService.generateTokenPair secret now rt userId deviceId
              db).1 rt (issuedToken secret nowR userId deviceId)).1,
          issuedToken secret nowR userId deviceId) := by
    unfold TokenService.refreshAccessToken
    rw [hfind]
    rfl
  have hnotrev : Token.isJwtRevoked
      (Token.revokeByDevice
        (Token.updateJwtToken
          (TokenService.generateTokenPair secret now rt userId deviceId
            db).1 rt (issuedToken secret nowR userId deviceId)).1
        userId deviceId).1
      (issuedToken secret now userId deviceId) = false := by
    unfold Token.isJwtRevoked Token.revokeByDevice Token.updateJwtToken
    simp only
    rw [List.any_eq_false]
    intro r hr
    rcases revokeRow_mem_map hr with ⟨r1, hr1, rfl⟩
    rcases List.mem_map.mp hr1 with ⟨r0, hr0, rfl⟩
    simp only [Bool.and_eq_true, decide_eq_true_eq, not_and]
    intro hval
    exfalso
    rw [revokeRow_jwt_token] at hval
    have hr0mem : r0 ∈ db
        ++ [⟨freshTokenId db, userId, deviceId, rt,
            issuedToken secret now userId deviceId, false,
            now + refreshTokenTtl⟩] := by
      simpa [TokenService.generateTokenPair, Token.create] using hr0
    rcases List.mem_append.mp hr0mem with hmem | hmem
    · by_cases hrteq : r0.refresh_token = rt
      · exact hrt r0 hmem hrteq
      · rw [if_neg hrteq] at hval
        exact hjwt r0 hmem hval
    · have hr0eq : r0 = ⟨freshTokenId db, userId, deviceId, rt,
          issuedToken secret now userId deviceId, false,
          now + refreshTokenTtl⟩ := by simpa using hmem
      subst hr0eq
      rw [if_pos rfl] at hval
      simp only [issuedToken, AccessToken.signed.injEq] at hval
      exact hne (by omega)
  refine ⟨hIff, hrot, hnotrev, ?_⟩
  have hle : ¬(now + jwtExpiresIn ≤ nowV) := Nat.not_le.mpr hunexp
  simp only [issuedToken] at hnotrev
  simp [authMiddleware, TokenService.isTokenRevoked, hnotrev,
    TokenService.verifyToken, jwtVerify, issuedToken, hle]

/-- Witness for C10: issue at instant 0, rotate at instant 1, revoke the
device; the instant-0 access token is reported not revoked and still passes
the middleware at instant 5. -/
theorem rotation_escapes_revocation_witness :
    Token.isJwtRevoked
        (Token.revokeByDevice
          (Token.updateJwtToken
            (TokenService.generateTokenPair "s" 0 "r" "u" "d" []).1 "r"
            (issuedToken "s" 1 "u" "d")).1 "u" "d").1
        (issuedToken "s" 0 "u" "d") = false ∧
    authMiddleware "s" 5
        (Token.revokeByDevice
          (Token.updateJwtToken
            (TokenService.generateTokenPair "s" 0 "r" "u" "d" []).1 "r"
            (issuedToken "s" 1 "u" "d")).1 "u" "d").1
        (some (issuedToken "s" 0 "u" "d"))
      = .authorized "u" "d" := by
  have h := rotation_escapes_revocation "s" 0 1 5 "u" "d" "r" []
    (by decide) (by decide) (by decide) (by decide) (by decide)
  exact ⟨h.2.2.1, h.2.2.2⟩

/-! ## Trace-shape lemmas for the effect-ordering claim -/

theorem writeBeforeRef_nil : writeBeforeRef [] := by
  intro j id name h
  rcases h with h | h <;> simp [List.get?] at h

theorem writeBeforeRef_save_trace (n : String) (i0 : Nat) :
    writeBeforeRef [Event.blobWrite n, Event.rowInsert i0 n] := by
  intro j id name h
  match j with
  | 0 => rcases h with h | h <;> simp [List.get?] at h
  | 1 =>
    rcases h with h | h
    · simp only [List.get?] at h
      injection h with h
      cases h
      exact ⟨0, by omega, rfl⟩
    · simp [List.get?] at h
  | (k + 2) => rcases h with h | h <;> simp [List.get?] at h

theorem writeBeforeRef_update_trace (n m : String) (i0 : Nat) :
    writeBeforeRef [Event.blobWrite n, Event.rowUpdate i0 n, Event.blobDelete m] := by
  intro j id name h
  match j with
  | 0 => rcases h with h | h <;> simp [List.get?] at h
  | 1 =>
    rcases h with h | h
    · simp [List.get?] at h
    · simp only [List.get?] at h
      injection h with h
      cases h
      exact ⟨0, by omega, rfl⟩
  | 2 => rcases h with h | h <;> simp [List.get?] at h
  | (k + 3) => rcases h with h | h <;> simp [List.get?] at h

theorem writeBeforeRef_rollback_trace (n : String) :
    writeBeforeRef [Event.blobWrite n, Event.blobDelete n] := by
  intro j id name h
  match j with
  | 0 => rcases h with h | h <;> simp [List.get?] at h
  | 1 => rcases h with h | h <;> simp [List.get?] at h
  | (k + 2) => rcases h with h | h <;> simp [List.get?] at h

theorem deleteAfterDeref_nil (refs : List (Nat × String)) :
    deleteAfterDeref refs [] := by
  intro i name h
  simp [List.get?] at h

theorem deleteAfterDeref_save_trace (refs : List (Nat × String)) (n : String)
    (i0 : Nat) : deleteAfterDeref refs [Event.blobWrite n, Event.rowInsert i0 n] := by
  intro i name h
  match i with
  | 0 => simp [List.get?] at h
  | 1 => simp [List.get?] at h
  | (k + 2) => simp [List.get?] at h

theorem deleteAfterDeref_update_trace (refs : List (Nat × String))
    (n old : String) (fid : Nat)
    (h2 : ∀ p ∈ refs.map (fun p => if p.1 = fid then (fid, n) else p),
      p.2 ≠ old) :
    deleteAfterDeref refs
      [Event.blobWrite n, Event.rowUpdate fid n, Event.blobDelete old] := by
  intro i name h
  match i with
  | 0 => simp [List.get?] at h
  | 1 => simp [List.get?] at h
  | 2 =>
    simp only [List.get?] at h
    injection h with h
    cases h
    intro p hp
    simp only [List.take, rowRefs] at hp
    exact h2 p hp
  | (k + 3) => simp [List.get?] at h

theorem deleteAfterDeref_rollback_trace (refs : List (Nat × String))
    (n : String) (h2 : ∀ p ∈ refs, p.2 ≠ n) :
    deleteAfterDeref refs [Event.blobWrite n, Event.blobDelete n] := by
  intro i name h
  match i with
  | 0 => simp [List.get?] at h
  | 1 =>
    simp only [List.get?] at h
    injection h with h
    cases h
    intro p hp
    simp only [List.take, rowRefs] at hp
    exact h2 p hp
  | (k + 2) => simp [List.get?] at h

theorem updateFile_success_eq (db : FileDB) (disk : Disk)
    (now fileId : Nat) (userId : String) (fd : UploadData)
    (storageName : String) (row : FileRow)
    (hfind : File.findById db fileId userId = some row)
    (hany : (File.update db fileId userId fd storageName now).2 = true) :
    FileService.updateFile db disk now fileId userId fd storageName true
      = ⟨.ok (File.findById
            (File.update db fileId userId fd storageName now).1 fileId userId),
         (File.update db fileId userId fd storageName now).1,
         diskUnlinkQuiet (diskWrite disk storageName) row.storage_name,
         [.blobWrite storageName, .rowUpdate fileId storageName,
          .blobDelete row.storage_name]⟩ := by
  simp only [FileService.updateFile, FileService.updateFileRun, hfind,
    hany, if_true, ite_true]

theorem deleteFile_found_eq (db : FileDB) (disk : Disk) (fileId : Nat)
    (userId : String) (row : FileRow)
    (hfind : File.findById db fileId userId = some row)
    (hdisk : row.storage_name ∈ disk) :
    FileService.deleteFile db disk fileId userId
      = ⟨.ok none, (File.deleteRow db fileId userId).1,
         diskUnlinkQuiet disk row.storage_name,
         [.blobDelete row.storage_name, .rowDelete fileId]⟩ := by
  simp only [FileService.deleteFile, hfind, if_pos hdisk, List.singleton_append]

/-- C7 counterexample: on a store holding one file (row id 1 referencing
blob bb, blob present), delete produces the trace
[blobDelete bb, rowDelete 1] — the blob is deleted while the metadata row
still references it, so the delete-after-dereference ordering the claim
asserts for every execution of delete is false. -/
theorem delete_blob_before_row_counterexample :
    (FileService.deleteFile [⟨1, "u", "a.txt", "bb", ".txt", "text", 3, 0⟩]
        ["bb"] 1 "u").trace
      = [.blobDelete "bb", .rowDelete 1] ∧
    ¬ deleteAfterDeref
        (refsOf [⟨1, "u", "a.txt", "bb", ".txt", "text", 3, 0⟩])
        (FileService.deleteFile [⟨1, "u", "a.txt", "bb", ".txt", "text", 3, 0⟩]
          ["bb"] 1 "u").trace := by
  refine ⟨rfl, ?_⟩
  intro h
  have hcon := h 0 "bb" (by rfl) (1, "bb") (by decide)
  exact hcon rfl

/-- C7 amended: store writes the blob before inserting the metadata row and
creates no row if the blob write fails; update writes the new blob before
the row update and deletes the old blob only after the row stopped
referencing it (and updates no row if the blob write fails); but delete
removes the blob from disk first and deletes the metadata row only
afterwards — the reverse of the claimed delete ordering. -/
theorem filePersistence_effect_ordering :
    (∀ (db : FileDB) (disk : Disk) (now : Nat) (fd : UploadData)
        (userId storageName : String) (writeOk : Bool),
      writeBeforeRef
          (FileService.saveFile db disk now fd userId storageName writeOk).trace ∧
      deleteAfterDeref (refsOf db)
          (FileService.saveFile db disk now fd userId storageName writeOk).trace ∧
      (writeOk = false →
        (FileService.saveFile db disk now fd userId storageName writeOk).db = db ∧
        (FileService.saveFile db disk now fd userId storageName writeOk).trace = [])) ∧
    (∀ (db : FileDB) (disk : Disk) (now fileId : Nat) (userId : String)
        (fd : UploadData) (storageName : String) (row : FileRow),
      File.findById db fileId userId = some row →
      (∀ r ∈ db, r.storage_name ≠ storageName) →
      db.Pairwise (fun a b => a.storage_name ≠ b.storage_name) →
      ((FileService.updateFile db disk now fileId userId fd storageName true).trace
          = [.blobWrite storageName, .rowUpdate fileId storageName,
             .blobDelete row.storage_name] ∧
        writeBeforeRef
          (FileService.updateFile db disk now fileId userId fd storageName true).trace ∧
        deleteAfterDeref (refsOf db)
          (FileService.updateFile db disk now fileId userId fd storageName true).trace) ∧
      ((FileService.updateFile db disk now fileId userId fd storageName false).db = db ∧
        (FileService.updateFile db disk now fileId userId fd storageName false).trace = [])) ∧
    (∀ (db : FileDB) (disk : Disk) (fileId : Nat) (userId : String)
        (row : FileRow),
      File.findById db fileId userId = some row →
      row.storage_name ∈ disk →
      (FileService.deleteFile db disk fileId userId).trace
        = [.blobDelete row.storage_name, .rowDelete fileId]) := by
  refine ⟨?_, ?_, ?_⟩
  · intro db disk now fd userId storageName writeOk
    cases writeOk with
    | false =>
      refine ⟨?_, ?_, fun _ => ⟨rfl, rfl⟩⟩
      · exact writeBeforeRef_nil
      · exact deleteAfterDeref_nil _
    | true =>
      refine ⟨?_, ?_, fun hcon => by simp at hcon⟩
      · exact writeBeforeRef_save_trace _ _
      · exact deleteAfterDeref_save_trace _ _ _
  · intro db disk now fileId userId fd storageName row hfind hfresh huniq
    have hpred := List.find?_some hfind
    simp only [Bool.and_eq_true, decide_eq_true_eq] at hpred
    have hmem := List.mem_of_find?_eq_some hfind
    have hany : (File.update db fileId userId fd storageName now).2 = true := by
      unfold File.update
      simp only [List.any_eq_true]
      exact ⟨row, hmem, by simp [hpred.1, hpred.2]⟩
    have heq := updateFile_success_eq db disk now fileId userId fd
      storageName row hfind hany
    have hderef : ∀ p ∈ (refsOf db).map
        (fun p => if p.1 = fileId then (fileId, storageName) else p),
        p.2 ≠ row.storage_name := by
      intro p hp
      rcases List.mem_map.mp hp with ⟨q, hq, rfl⟩
      rcases List.mem_map.mp hq with ⟨r, hr, rfl⟩
      by_cases hid : r.id = fileId
      · rw [if_pos hid]
        exact fun hcon => hfresh row hmem hcon.symm
      · rw [if_neg hid]
        have hner : r ≠ row := fun hcon => hid (by rw [hcon, hpred.1])
        have hsymm : Symmetric
            (fun (a b : FileRow) => a.storage_name ≠ b.storage_name) :=
          fun a b hab hcon => hab hcon.symm
        exact huniq.forall hsymm hr hmem hner
    refine ⟨⟨?_, ?_, ?_⟩, ?_, ?_⟩
    · rw [heq]
    · rw [heq]
      exact writeBeforeRef_update_trace _ _ _
    · rw [heq]
      exact deleteAfterDeref_update_trace _ _ _ _ hderef
    · simp [FileService.updateFile, FileService.updateFileRun, hfind]
    · simp [FileService.updateFile, FileService.updateFileRun, hfind]
  · intro db disk fileId userId row hfind hdisk
    rw [deleteFile_found_eq db disk fileId userId row hfind hdisk]

/-- Witness for the amended C7: a concrete store of one file; its update
with a fresh blob name produces the write-update-delete trace, and delete
produces the blob-then-row trace. -/
theorem filePersistence_effect_ordering_witness :
    (FileService.updateFile [⟨1, "u", "a.txt", "bb", ".txt", "text", 3, 0⟩]
        ["bb"] 9 1 "u" ⟨"c.txt", ".txt", "text", 5⟩ "cc" true).trace
      = [.blobWrite "cc", .rowUpdate 1 "cc", .blobDelete "bb"] ∧
    (FileService.deleteFile [⟨1, "u", "a.txt", "bb", ".txt", "text", 3, 0⟩]
        ["bb"] 1 "u").trace
      = [.blobDelete "bb", .rowDelete 1] := by
  have h := filePersistence_effect_ordering
  refine ⟨(h.2.1 [⟨1, "u", "a.txt", "bb", ".txt", "text", 3, 0⟩] ["bb"] 9 1 "u"
      ⟨"c.txt", ".txt", "text", 5⟩ "cc"
      ⟨1, "u", "a.txt", "bb", ".txt", "text", 3, 0⟩
      (by decide) (by decide) (by decide)).1.1, ?_⟩
  exact h.2.2 [⟨1, "u", "a.txt", "bb", ".txt", "text", 3, 0⟩] ["bb"] 1 "u"
    ⟨1, "u", "a.txt", "bb", ".txt", "text", 3, 0⟩ (by decide) (by decide)

end ErpAero
